import Mathlib

/-!
Verification of the libcoap asynchronous exchange registry (src/async.c)
and the parts of the PDU layer it relies on (include/coap2/pdu.h).

The embedding models a CoAP PDU as a record of its abstract fields
(type, code, message id, token, options, payload), a registered
asynchronous exchange as the `coap_async_t` record, and the messaging
context as the intrusive linked list `context->async_state` together
with the observable effects of the collaborators: the reference-counted
session store and the destruction of owned PDUs.  Pointer identity of
list nodes is modelled by a numeric `id` field; the context carries a
`nextId` counter standing for the allocator handing out fresh addresses.
-/

namespace LibCoap

/-- A CoAP PDU (struct coap_pdu_t, include/coap2/pdu.h): message type,
code, message id, token bytes, option list (number, value bytes) and
payload bytes.  Byte values are modelled as `Nat`. -/
structure Pdu where
  type : Nat
  code : Nat
  mid : Nat
  token : List Nat
  options : List (Nat × List Nat)
  payload : List Nat
  deriving DecidableEq

/-- COAP_PDU_IS_EMPTY(pdu): `(pdu)->code == 0` (pdu.h line 324). -/
def COAP_PDU_IS_EMPTY (p : Pdu) : Bool :=
  p.code == 0

/-- COAP_PDU_IS_REQUEST(pdu): `!COAP_PDU_IS_EMPTY(pdu) && (pdu)->code < 32`
(pdu.h line 325). -/
def COAP_PDU_IS_REQUEST (p : Pdu) : Bool :=
  !COAP_PDU_IS_EMPTY p && decide (p.code < 32)

/-- One registered asynchronous exchange (coap_async_t).  `id` models the
node's address (pointer identity), `session` the session pointer
(`none` = NULL), `pdu` the owned duplicate (`none` = NULL), `delay` the
fire tick (`0` = no scheduled delay, as left by `memset` and by
`coap_async_set_delay(async, 0)`). -/
structure CoapAsync where
  id : Nat
  session : Option Nat
  pdu : Option Pdu
  delay : Nat
  deriving DecidableEq

/-- The messaging context, restricted to the state the async registry
touches: the `async_state` list, the observable reference counts of the
session collaborator, the log of PDUs handed to `coap_delete_pdu`, and
the fresh-address counter for allocated nodes. -/
structure CoapContext where
  async_state : List CoapAsync
  refcounts : Nat → Nat
  destroyedPdus : List Pdu
  nextId : Nat

/-- The match condition of SEARCH_PAIR (async.c lines 19-27) at one node:
`(out)->session == (val1) && (out)->pdu->mid == (val2)`. -/
def keyMatches (a : CoapAsync) (sess mid : Nat) : Bool :=
  a.session == some sess && a.pdu.map Pdu.mid == some mid

/-- SEARCH_PAIR(head,out,session,session,pdu->mid,mid): walk the list and
stop at the first node whose session and pdu->mid match. -/
def searchPair (l : List CoapAsync) (sess mid : Nat) : Option CoapAsync :=
  l.find? (fun a => keyMatches a sess mid)

/-- Modelled from the spec: the session collaborator's `acquire`
(coap_session_reference, session.c is not part of the sources) —
"a session abstraction supporting reference counting (acquire/release)";
the registry "takes a counted reference to the session".  The observable
effect is one increment of the session's count. -/
def coap_session_reference (rc : Nat → Nat) (sid : Nat) : Nat → Nat :=
  fun i => if i = sid then rc i + 1 else rc i

/-- Modelled from the spec: the session collaborator's `release`
(coap_session_release, session.c is not part of the sources); the
registry's hold "must be released exactly once per successful
registration".  The observable effect is one decrement. -/
def coap_session_release (rc : Nat → Nat) (sid : Nat) : Nat → Nat :=
  fun i => if i = sid then rc i - 1 else rc i

/-- Modelled from the spec: coap_pdu_duplicate (its body, pdu.c, is not
part of the sources; the declaration is pdu.h lines 467-485) —
"deep-copies type/code, re-keys the token, copies all options except
those in `drop_option_numbers`, and does not copy the payload"; per the
header doc, "If NULL, then all options are copied across".  The fresh
message id the duplicate is created with (async.c line 64 notes
"coap_pdu_duplicate() created one") is the `freshMid` parameter. -/
def coap_pdu_duplicate (old : Pdu) (token : List Nat)
    (drop_options : Option (List Nat)) (freshMid : Nat) : Pdu :=
  { type := old.type
    code := old.code
    mid := freshMid
    token := token
    options :=
      match drop_options with
      | none => old.options
      | some ds => old.options.filter (fun o => !ds.contains o.1)
    payload := [] }

/-- coap_register_async (async.c lines 29-80).  `now` is the tick
delivered by `coap_ticks`; `allocOk` models whether `coap_malloc`
succeeds and `dupOk` whether `coap_pdu_duplicate` succeeds; `freshMid`
is the message id the duplicate is created with before the code
overwrites it.  Returns the new exchange (or `none`) and the updated
context. -/
def coap_register_async (ctx : CoapContext) (session : Nat) (request : Pdu)
    (delay : Nat) (now : Nat) (allocOk : Bool) (dupOk : Bool)
    (freshMid : Nat) : Option CoapAsync × CoapContext :=
  if !COAP_PDU_IS_REQUEST request then (none, ctx)
  else if (searchPair ctx.async_state session request.mid).isSome then
    (none, ctx)
  else if !allocOk then (none, ctx)
  else if !dupOk then
    -- coap_pdu_duplicate returned NULL: coap_free_async is called on the
    -- fresh zeroed node, which is not linked into the registry and whose
    -- session and pdu fields are NULL, so the context is unchanged apart
    -- from the consumed node address.
    (none, { ctx with nextId := ctx.nextId + 1 })
  else
    let dup0 := coap_pdu_duplicate request request.token none freshMid
    -- s->pdu->mid = mid (line 64)
    let dup1 := { dup0 with mid := request.mid }
    -- if (coap_get_data(request, &len, &data)) coap_add_data(s->pdu, len, data)
    let dup2 :=
      if request.payload.isEmpty then dup1
      else { dup1 with payload := request.payload }
    let s : CoapAsync :=
      { id := ctx.nextId
        session := some session
        pdu := some dup2
        delay := if delay = 0 then 0 else now + delay }
    (some s,
     { ctx with
       async_state := s :: ctx.async_state
       refcounts := coap_session_reference ctx.refcounts session
       nextId := ctx.nextId + 1 })

/-- coap_async_set_delay (async.c lines 82-92): with a nonzero delay the
fire tick becomes `now + delay` (coap_ticks then `+= delay`), otherwise
it is cleared to 0. -/
def coap_async_set_delay (s : CoapAsync) (delay now : Nat) : CoapAsync :=
  if delay ≠ 0 then { s with delay := now + delay }
  else { s with delay := 0 }

/-- In-place update of the registry node with address `i` by
coap_async_set_delay: the C function mutates the node inside the
context's list. -/
def coap_async_set_delay_ctx (ctx : CoapContext) (i : Nat)
    (delay now : Nat) : CoapContext :=
  { ctx with
    async_state :=
      ctx.async_state.map
        (fun a => if a.id = i then coap_async_set_delay a delay now else a) }

/-- coap_find_async (async.c lines 95-101): linear SEARCH_PAIR lookup. -/
def coap_find_async (ctx : CoapContext) (session mid : Nat) :
    Option CoapAsync :=
  searchPair ctx.async_state session mid

/-- LL_DELETE: remove the node with address `i` from the intrusive list
(a no-op when no node has that address). -/
def llDelete (l : List CoapAsync) (i : Nat) : List CoapAsync :=
  match l with
  | [] => []
  | x :: xs => if x.id = i then xs else x :: llDelete xs i

/-- coap_free_async (async.c lines 103-116): a NULL argument is a no-op;
otherwise the node is unlinked, the session reference released when the
session field is set, and the owned PDU destroyed when set. -/
def coap_free_async (ctx : CoapContext) (s : Option CoapAsync) :
    CoapContext :=
  match s with
  | none => ctx
  | some s =>
    let ctx1 := { ctx with async_state := llDelete ctx.async_state s.id }
    let ctx2 :=
      match s.session with
      | some sid => { ctx1 with refcounts := coap_session_release ctx1.refcounts sid }
      | none => ctx1
    match s.pdu with
    | some p => { ctx2 with destroyedPdus := ctx2.destroyedPdus ++ [p] }
    | none => ctx2

/-- coap_delete_all_async (async.c lines 118-126): LL_FOREACH_SAFE over
the registry calling coap_free_async on each node (the iteration order
is the list as it stood when the loop started), then the head pointer is
set to NULL. -/
def coap_delete_all_async (ctx : CoapContext) : CoapContext :=
  let ctx1 := ctx.async_state.foldl (fun c a => coap_free_async c (some a)) ctx
  { ctx1 with async_state := [] }

/-- The registry states reachable through the module's operations,
starting from a context with an empty `async_state` list. -/
inductive Reachable : CoapContext → Prop where
  | init (rc : Nat → Nat) :
      Reachable { async_state := [], refcounts := rc, destroyedPdus := [], nextId := 0 }
  | register (ctx : CoapContext) (session : Nat) (request : Pdu)
      (delay now : Nat) (allocOk dupOk : Bool) (freshMid : Nat) :
      Reachable ctx →
      Reachable (coap_register_async ctx session request delay now allocOk dupOk freshMid).2
  | setDelay (ctx : CoapContext) (i delay now : Nat) :
      Reachable ctx → Reachable (coap_async_set_delay_ctx ctx i delay now)
  | free (ctx : CoapContext) (s : Option CoapAsync) :
      Reachable ctx → Reachable (coap_free_async ctx s)
  | deleteAll (ctx : CoapContext) :
      Reachable ctx → Reachable (coap_delete_all_async ctx)

/-- The (session, pdu->mid) key SEARCH_PAIR compares against. -/
def keyOf (a : CoapAsync) : Option Nat × Option Nat :=
  (a.session, a.pdu.map Pdu.mid)

/-- The structural invariant of reachable contexts: registry keys are
pairwise distinct, node addresses are pairwise distinct, and every node
address is below the allocator counter. -/
def CtxInv (ctx : CoapContext) : Prop :=
  ctx.async_state.Pairwise (fun a b => keyOf a ≠ keyOf b) ∧
  ctx.async_state.Pairwise (fun a b => a.id ≠ b.id) ∧
  ∀ a ∈ ctx.async_state, a.id < ctx.nextId

/-- COAP_MESSAGE_SIZE_OFFSET_TCP8 (pdu.h line 39). -/
def COAP_MESSAGE_SIZE_OFFSET_TCP8 : Nat := 13

/-- COAP_MESSAGE_SIZE_OFFSET_TCP16 (pdu.h line 40): 13 + 256. -/
def COAP_MESSAGE_SIZE_OFFSET_TCP16 : Nat := 269

/-- COAP_MESSAGE_SIZE_OFFSET_TCP32 (pdu.h line 41): 269 + 65536. -/
def COAP_MESSAGE_SIZE_OFFSET_TCP32 : Nat := 65805

/-- COAP_MAX_MESSAGE_SIZE_TCP0 (pdu.h line 44): 12. -/
def COAP_MAX_MESSAGE_SIZE_TCP0 : Nat := COAP_MESSAGE_SIZE_OFFSET_TCP8 - 1

/-- COAP_MAX_MESSAGE_SIZE_TCP8 (pdu.h line 45): 268. -/
def COAP_MAX_MESSAGE_SIZE_TCP8 : Nat := COAP_MESSAGE_SIZE_OFFSET_TCP16 - 1

/-- COAP_MAX_MESSAGE_SIZE_TCP16 (pdu.h line 46): 65804. -/
def COAP_MAX_MESSAGE_SIZE_TCP16 : Nat := COAP_MESSAGE_SIZE_OFFSET_TCP32 - 1

/-- COAP_MAX_MESSAGE_SIZE_TCP32 (pdu.h line 47): 65805 + 0xFFFFFFFF. -/
def COAP_MAX_MESSAGE_SIZE_TCP32 : Nat := COAP_MESSAGE_SIZE_OFFSET_TCP32 + 0xFFFFFFFF

/-- COAP_PROTO_UDP (pdu.h line 356). -/
def COAP_PROTO_UDP : Nat := 1

/-- COAP_PROTO_DTLS (pdu.h line 357). -/
def COAP_PROTO_DTLS : Nat := 2

/-- COAP_PROTO_TCP (pdu.h line 358). -/
def COAP_PROTO_TCP : Nat := 3

/-- COAP_PROTO_TLS (pdu.h line 359). -/
def COAP_PROTO_TLS : Nat := 4

/-- Modelled from the spec: the TCP branch of coap_pdu_encode_header
(its body, pdu.c, is not part of the sources; declaration pdu.h lines
680-687) — the first header byte packs the 4-bit length nibble and the
4-bit token-length nibble; nibble values below 13 carry the declared
body length directly, nibble 13 adds one extension byte with base
offset 13, nibble 14 two big-endian bytes with base offset 269, nibble
15 four big-endian bytes with base offset 65805; the code byte closes
the header; the smallest representation that fits is chosen. -/
def coap_pdu_encode_header_tcp (bodyLen tkl code : Nat) : List Nat :=
  if bodyLen ≤ COAP_MAX_MESSAGE_SIZE_TCP0 then
    [bodyLen * 16 + tkl, code]
  else if bodyLen ≤ COAP_MAX_MESSAGE_SIZE_TCP8 then
    [13 * 16 + tkl, bodyLen - COAP_MESSAGE_SIZE_OFFSET_TCP8, code]
  else if bodyLen ≤ COAP_MAX_MESSAGE_SIZE_TCP16 then
    [14 * 16 + tkl,
     (bodyLen - COAP_MESSAGE_SIZE_OFFSET_TCP16) / 256,
     (bodyLen - COAP_MESSAGE_SIZE_OFFSET_TCP16) % 256, code]
  else
    [15 * 16 + tkl,
     (bodyLen - COAP_MESSAGE_SIZE_OFFSET_TCP32) / 16777216 % 256,
     (bodyLen - COAP_MESSAGE_SIZE_OFFSET_TCP32) / 65536 % 256,
     (bodyLen - COAP_MESSAGE_SIZE_OFFSET_TCP32) / 256 % 256,
     (bodyLen - COAP_MESSAGE_SIZE_OFFSET_TCP32) % 256, code]

/-- Modelled from the spec: coap_pdu_parse_header_size (its body, pdu.c,
is not part of the sources; declaration pdu.h lines 488-497) — UDP and
DTLS use the fixed 4-byte header; over TCP and TLS the first byte's high
nibble decides: below 13 the header is the 2 base bytes, 13 adds one
extension byte (3), 14 adds two (4), 15 adds four (6); 0 on error. -/
def coap_pdu_parse_header_size (proto : Nat) (data : List Nat) : Nat :=
  if proto = COAP_PROTO_UDP ∨ proto = COAP_PROTO_DTLS then 4
  else if proto = COAP_PROTO_TCP ∨ proto = COAP_PROTO_TLS then
    match data with
    | [] => 0
    | b :: _ =>
      if b / 16 < 13 then 2
      else if b / 16 = 13 then 3
      else if b / 16 = 14 then 4
      else 6
  else 0

/-- Modelled from the spec: the declared-body-length decode inside
coap_pdu_parse_size's TCP branch (its body, pdu.c, is not part of the
sources; declaration pdu.h lines 499-512) — the inverse of the length
classes of `coap_pdu_encode_header_tcp`: nibble below 13 is the length
itself, nibble 13 reads one extension byte plus offset 13, nibble 14
two big-endian bytes plus offset 269, nibble 15 four big-endian bytes
plus offset 65805. -/
def coap_pdu_parse_size_tcp (data : List Nat) : Nat :=
  match data with
  | [] => 0
  | b :: rest =>
    if b / 16 < 13 then b / 16
    else if b / 16 = 13 then
      rest.headD 0 + COAP_MESSAGE_SIZE_OFFSET_TCP8
    else if b / 16 = 14 then
      rest.headD 0 * 256 + rest.tail.headD 0 + COAP_MESSAGE_SIZE_OFFSET_TCP16
    else
      rest.headD 0 * 16777216 + rest.tail.headD 0 * 65536 +
      rest.tail.tail.headD 0 * 256 + rest.tail.tail.tail.headD 0 +
      COAP_MESSAGE_SIZE_OFFSET_TCP32

/-- Number of registry nodes holding a reference to session `j` (used to
state the net effect of coap_delete_all_async on the session counts). -/
def countSessions (l : List CoapAsync) (j : Nat) : Nat :=
  (l.filter (fun a => a.session == some j)).length

/-- A sample well-formed GET request (code 1) used for concrete
instantiations. -/
def sampleRequest : Pdu :=
  { type := 0, code := 1, mid := 7, token := [1, 2],
    options := [(11, [97])], payload := [42] }

/-- A sample context with an empty registry and one outstanding
reference on every session. -/
def sampleCtx : CoapContext :=
  { async_state := [], refcounts := fun _ => 1, destroyedPdus := [],
    nextId := 0 }

/-- The exchange produced by registering `sampleRequest` on session 1 in
`sampleCtx`: the stored duplicate carries the request's token, options
and payload, and its message id 7 (the fresh id 5 is overwritten). -/
def sampleExchange : CoapAsync :=
  { id := 0, session := some 1, pdu := some sampleRequest, delay := 0 }

/-- The context after registering `sampleRequest` on session 1 in
`sampleCtx`. -/
def sampleCtx1 : CoapContext :=
  (coap_register_async sampleCtx 1 sampleRequest 0 0 true true 5).2

/-! ### Helper lemmas -/

theorem is_request_iff (p : Pdu) :
    COAP_PDU_IS_REQUEST p = true ↔ (p.code ≠ 0 ∧ p.code < 32) := by
  simp [COAP_PDU_IS_REQUEST, COAP_PDU_IS_EMPTY]

theorem keyMatches_iff (a : CoapAsync) (sess mid : Nat) :
    keyMatches a sess mid = true ↔ keyOf a = (some sess, some mid) := by
  simp [keyMatches, keyOf, Prod.ext_iff]

theorem searchPair_eq_none_iff (l : List CoapAsync) (sess mid : Nat) :
    searchPair l sess mid = none ↔
      ∀ a ∈ l, keyOf a ≠ (some sess, some mid) := by
  simp [searchPair, List.find?_eq_none, keyMatches_iff]

theorem llDelete_sublist (l : List CoapAsync) (i : Nat) :
    (llDelete l i).Sublist l := by
  induction l with
  | nil => simp [llDelete]
  | cons x xs ih =>
    simp only [llDelete]
    split
    · exact List.sublist_cons_self x xs
    · exact List.Sublist.cons₂ x ih

theorem set_delay_id (s : CoapAsync) (delay now : Nat) :
    (coap_async_set_delay s delay now).id = s.id := by
  unfold coap_async_set_delay
  split <;> rfl

theorem set_delay_keyOf (s : CoapAsync) (delay now : Nat) :
    keyOf (coap_async_set_delay s delay now) = keyOf s := by
  unfold coap_async_set_delay keyOf
  split <;> rfl

/-- Characterization of a successful coap_register_async call: the
branch conditions that were passed and the exact node and context
produced. -/
theorem register_success_iff (ctx : CoapContext) (session : Nat)
    (request : Pdu) (delay now : Nat) (aOk dOk : Bool) (fm : Nat)
    (e : CoapAsync) (ctx' : CoapContext)
    (h : coap_register_async ctx session request delay now aOk dOk fm =
          (some e, ctx')) :
    COAP_PDU_IS_REQUEST request = true ∧
    searchPair ctx.async_state session request.mid = none ∧
    aOk = true ∧ dOk = true ∧
    e = { id := ctx.nextId
          session := some session
          pdu := some
            (let dup0 := coap_pdu_duplicate request request.token none fm
             let dup1 := { dup0 with mid := request.mid }
             if request.payload.isEmpty then dup1
             else { dup1 with payload := request.payload })
          delay := if delay = 0 then 0 else now + delay } ∧
    ctx' = { ctx with
             async_state := e :: ctx.async_state
             refcounts := coap_session_reference ctx.refcounts session
             nextId := ctx.nextId + 1 } := by
  unfold coap_register_async at h
  by_cases h1 : COAP_PDU_IS_REQUEST request
  · simp only [h1, Bool.not_true, Bool.false_eq_true, if_false] at h
    by_cases h2 : (searchPair ctx.async_state session request.mid).isSome
    · simp [h2] at h
    · simp only [h2, Bool.false_eq_true, if_false] at h
      cases aOk with
      | false => simp at h
      | true =>
        cases dOk with
        | false => simp at h
        | true =>
          simp only [Bool.not_true, Bool.false_eq_true, if_false] at h
          obtain ⟨he, hc⟩ := Prod.mk.injEq .. ▸ h
          refine ⟨h1, Option.not_isSome_iff_eq_none.mp h2, rfl, rfl, ?_, ?_⟩
          · exact (Option.some.injEq .. ▸ he).symm
          · rw [← hc, Option.some.injEq] at *
            subst he
            rfl
  · simp [h1] at h

theorem free_async_state (ctx : CoapContext) (s : CoapAsync) :
    (coap_free_async ctx (some s)).async_state =
      llDelete ctx.async_state s.id := by
  simp only [coap_free_async]
  cases s.session <;> cases s.pdu <;> rfl

theorem free_nextId (ctx : CoapContext) (s : Option CoapAsync) :
    (coap_free_async ctx s).nextId = ctx.nextId := by
  cases s with
  | none => rfl
  | some s =>
    simp only [coap_free_async]
    cases s.session <;> cases s.pdu <;> rfl

theorem ctxInv_register (ctx : CoapContext) (session : Nat) (request : Pdu)
    (delay now : Nat) (aOk dOk : Bool) (fm : Nat) (h : CtxInv ctx) :
    CtxInv (coap_register_async ctx session request delay now aOk dOk fm).2 := by
  obtain ⟨hkey, hid, hlt⟩ := h
  unfold coap_register_async
  split
  · exact ⟨hkey, hid, hlt⟩
  next h1 =>
  split
  next h2 => exact ⟨hkey, hid, hlt⟩
  next h2 =>
  split
  · exact ⟨hkey, hid, hlt⟩
  next h3 =>
  split
  · exact ⟨hkey, hid, fun a ha => Nat.lt_succ_of_lt (hlt a ha)⟩
  next h4 =>
  dsimp only
  refine ⟨?_, ?_, ?_⟩
  · refine List.pairwise_cons.mpr ⟨?_, hkey⟩
    intro b hb
    have hnone : searchPair ctx.async_state session request.mid = none := by
      simpa [Option.not_isSome_iff_eq_none] using h2
    have hb' := (searchPair_eq_none_iff _ _ _).mp hnone b hb
    intro hcontra
    apply hb'
    rw [← hcontra]
    by_cases hp : request.payload.isEmpty <;> simp [keyOf, hp]
  · refine List.pairwise_cons.mpr ⟨?_, hid⟩
    intro b hb hcontra
    have := hlt b hb
    simp only at hcontra
    omega
  · intro a ha
    rcases List.mem_cons.mp ha with rfl | ha'
    · exact Nat.lt_succ_self _
    · exact Nat.lt_succ_of_lt (hlt a ha')

theorem ctxInv_setDelay (ctx : CoapContext) (i delay now : Nat)
    (h : CtxInv ctx) : CtxInv (coap_async_set_delay_ctx ctx i delay now) := by
  obtain ⟨hkey, hid, hlt⟩ := h
  have hfk : ∀ a : CoapAsync,
      keyOf (if a.id = i then coap_async_set_delay a delay now else a) =
        keyOf a := by
    intro a
    split
    · exact set_delay_keyOf a delay now
    · rfl
  have hfi : ∀ a : CoapAsync,
      (if a.id = i then coap_async_set_delay a delay now else a).id = a.id := by
    intro a
    split
    · exact set_delay_id a delay now
    · rfl
  refine ⟨?_, ?_, ?_⟩
  · exact List.Pairwise.map _ (fun a b hab => by rw [hfk, hfk]; exact hab) hkey
  · exact List.Pairwise.map _ (fun a b hab => by rw [hfi, hfi]; exact hab) hid
  · intro a ha
    simp only [coap_async_set_delay_ctx, List.mem_map] at ha
    obtain ⟨b, hb, rfl⟩ := ha
    rw [hfi]
    exact hlt b hb

theorem ctxInv_free (ctx : CoapContext) (s : Option CoapAsync)
    (h : CtxInv ctx) : CtxInv (coap_free_async ctx s) := by
  obtain ⟨hkey, hid, hlt⟩ := h
  cases s with
  | none => exact ⟨hkey, hid, hlt⟩
  | some s =>
    have hsub := llDelete_sublist ctx.async_state s.id
    refine ⟨?_, ?_, ?_⟩
    · rw [free_async_state]
      exact hkey.sublist hsub
    · rw [free_async_state]
      exact hid.sublist hsub
    · intro a ha
      rw [free_async_state] at ha
      rw [free_nextId]
      exact hlt a (hsub.subset ha)

theorem ctxInv_deleteAll (ctx : CoapContext) :
    CtxInv (coap_delete_all_async ctx) := by
  refine ⟨?_, ?_, ?_⟩ <;> simp [coap_delete_all_async]

/-- Every reachable context satisfies the structural invariant. -/
theorem reachable_inv (ctx : CoapContext) (h : Reachable ctx) : CtxInv ctx := by
  induction h with
  | init rc => exact ⟨List.Pairwise.nil, List.Pairwise.nil, by simp⟩
  | register ctx session request delay now aOk dOk fm _ ih =>
    exact ctxInv_register ctx session request delay now aOk dOk fm ih
  | setDelay ctx i delay now _ ih => exact ctxInv_setDelay ctx i delay now ih
  | free ctx s _ ih => exact ctxInv_free ctx s ih
  | deleteAll ctx _ _ => exact ctxInv_deleteAll ctx

theorem searchPair_cons_pos (e : CoapAsync) (l : List CoapAsync)
    (sess mid : Nat) (h : keyOf e = (some sess, some mid)) :
    searchPair (e :: l) sess mid = some e := by
  have hm : keyMatches e sess mid = true := (keyMatches_iff e sess mid).mpr h
  simp [searchPair, List.find?_cons, hm]

theorem searchPair_cons_neg (e : CoapAsync) (l : List CoapAsync)
    (sess mid : Nat) (h : keyOf e ≠ (some sess, some mid)) :
    searchPair (e :: l) sess mid = searchPair l sess mid := by
  have hm : keyMatches e sess mid = false := by
    rw [Bool.eq_false_iff]
    intro htrue
    exact h ((keyMatches_iff e sess mid).mp htrue)
  simp [searchPair, List.find?_cons, hm]

theorem register_node_keyOf (ctx : CoapContext) (session : Nat)
    (request : Pdu) (delay now : Nat) (aOk dOk : Bool) (fm : Nat)
    (e : CoapAsync) (ctx' : CoapContext)
    (h : coap_register_async ctx session request delay now aOk dOk fm =
          (some e, ctx')) :
    keyOf e = (some session, some request.mid) := by
  obtain ⟨-, -, -, -, he, -⟩ :=
    register_success_iff ctx session request delay now aOk dOk fm e ctx' h
  subst he
  by_cases hp : request.payload.isEmpty <;> simp [keyOf, hp]

theorem register_ctx_async_state (ctx : CoapContext) (session : Nat)
    (request : Pdu) (delay now : Nat) (aOk dOk : Bool) (fm : Nat)
    (e : CoapAsync) (ctx' : CoapContext)
    (h : coap_register_async ctx session request delay now aOk dOk fm =
          (some e, ctx')) :
    ctx'.async_state = e :: ctx.async_state := by
  obtain ⟨-, -, -, -, -, hc⟩ :=
    register_success_iff ctx session request delay now aOk dOk fm e ctx' h
  rw [hc]

/-- After a successful registration, looking up the request's message id
on the same session yields the new exchange. -/
theorem find_after_register (ctx : CoapContext) (session : Nat)
    (request : Pdu) (delay now : Nat) (aOk dOk : Bool) (fm : Nat)
    (e : CoapAsync) (ctx' : CoapContext)
    (h : coap_register_async ctx session request delay now aOk dOk fm =
          (some e, ctx')) :
    coap_find_async ctx' session request.mid = some e := by
  rw [coap_find_async,
      register_ctx_async_state ctx session request delay now aOk dOk fm e ctx' h]
  exact searchPair_cons_pos e ctx.async_state session request.mid
    (register_node_keyOf ctx session request delay now aOk dOk fm e ctx' h)

/-- Deleting a registered node from a registry with pairwise-distinct
keys and addresses leaves no node carrying that node's key. -/
theorem searchPair_llDelete_eq_none (l : List CoapAsync)
    (hkey : l.Pairwise (fun a b => keyOf a ≠ keyOf b))
    (hid : l.Pairwise (fun a b => a.id ≠ b.id))
    (e : CoapAsync) (he : e ∈ l) (sid : Nat) (p : Pdu)
    (hs : e.session = some sid) (hp : e.pdu = some p) :
    searchPair (llDelete l e.id) sid p.mid = none := by
  have hke : keyOf e = (some sid, some p.mid) := by
    rw [keyOf, hs, hp]
    rfl
  induction l with
  | nil => cases he
  | cons x xs ih =>
    rw [List.pairwise_cons] at hkey hid
    obtain ⟨hkx, hkxs⟩ := hkey
    obtain ⟨hix, hixs⟩ := hid
    simp only [llDelete]
    split
    next hxe =>
      have hex : e = x := by
        rcases List.mem_cons.mp he with rfl | hmem
        · rfl
        · exact absurd hxe (hix e hmem)
      subst hex
      rw [searchPair_eq_none_iff]
      intro a ha hcontra
      exact hkx a ha (hcontra ▸ hke)
    next hxe =>
      have hmem : e ∈ xs := by
        rcases List.mem_cons.mp he with rfl | hmem
        · exact absurd rfl hxe
        · exact hmem
      rw [searchPair_cons_neg x _ sid p.mid
            (fun hcontra => hkx e hmem (hcontra.trans hke.symm))]
      exact ih hkxs hixs hmem

theorem llDelete_append (l1 l2 : List CoapAsync) (e : CoapAsync)
    (hfresh : ∀ a ∈ l1, a.id ≠ e.id) :
    llDelete (l1 ++ e :: l2) e.id = l1 ++ l2 := by
  induction l1 with
  | nil => simp [llDelete]
  | cons x xs ih =>
    have hx : x.id ≠ e.id := hfresh x (List.mem_cons_self x xs)
    simp only [List.cons_append, llDelete, if_neg hx]
    rw [show xs.append (e :: l2) = xs ++ e :: l2 from rfl,
        ih (fun a ha => hfresh a (List.mem_cons_of_mem x ha))]

theorem free_refcounts (c : CoapContext) (x : CoapAsync) (j : Nat) :
    (coap_free_async c (some x)).refcounts j =
      if x.session = some j then c.refcounts j - 1 else c.refcounts j := by
  simp only [coap_free_async]
  cases hs : x.session with
  | none => cases hp : x.pdu <;> simp
  | some sid =>
    cases hp : x.pdu <;>
      by_cases hj : sid = j <;>
        simp [coap_session_release, hj, eq_comm]

theorem free_destroyed (c : CoapContext) (x : CoapAsync) :
    (coap_free_async c (some x)).destroyedPdus =
      c.destroyedPdus ++ x.pdu.toList := by
  simp only [coap_free_async]
  cases hs : x.session <;> cases hp : x.pdu <;> simp

theorem deleteAll_fold_refcounts (l : List CoapAsync) (c : CoapContext)
    (j : Nat) :
    (l.foldl (fun c a => coap_free_async c (some a)) c).refcounts j =
      c.refcounts j - countSessions l j := by
  induction l generalizing c with
  | nil => simp [countSessions]
  | cons x xs ih =>
    rw [List.foldl_cons, ih]
    rw [free_refcounts]
    by_cases hx : x.session = some j
    · simp only [countSessions, List.filter_cons]
      simp [hx]
      omega
    · have hx' : (x.session == some j) = false := by
        rw [beq_eq_false_iff_ne]
        exact hx
      simp [countSessions, List.filter_cons, hx', if_neg hx]

theorem deleteAll_fold_destroyed (l : List CoapAsync) (c : CoapContext) :
    (l.foldl (fun c a => coap_free_async c (some a)) c).destroyedPdus =
      c.destroyedPdus ++ l.filterMap CoapAsync.pdu := by
  induction l generalizing c with
  | nil => simp
  | cons x xs ih =>
    rw [List.foldl_cons, ih, free_destroyed]
    cases hp : x.pdu <;> simp [List.filterMap_cons, hp]

/-! ### Claim theorems -/

/-- Claim C5: coap_pdu_duplicate keeps the source's type and code, takes
the supplied token, copies exactly the options whose numbers are not in
the drop list (all of them when the list is absent or empty), and does
not copy the payload: the duplicate's payload is empty. -/
theorem C5_pdu_duplicate_spec (old : Pdu) (token : List Nat)
    (drops : Option (List Nat)) (fm : Nat) :
    (coap_pdu_duplicate old token drops fm).type = old.type ∧
    (coap_pdu_duplicate old token drops fm).code = old.code ∧
    (coap_pdu_duplicate old token drops fm).token = token ∧
    (coap_pdu_duplicate old token drops fm).payload = [] ∧
    ∀ o, o ∈ (coap_pdu_duplicate old token drops fm).options ↔
      (o ∈ old.options ∧ o.1 ∉ drops.getD []) := by
  refine ⟨rfl, rfl, rfl, rfl, ?_⟩
  intro o
  cases drops with
  | none => simp [coap_pdu_duplicate]
  | some ds => simp [coap_pdu_duplicate, List.mem_filter]

/-- Claim C6: coap_async_set_delay clears the fire tick when the delay
is zero and sets it to the current tick plus the delay otherwise; the
exchange's identity, session and stored pdu are untouched either way. -/
theorem C6_set_delay_spec (s : CoapAsync) (delay now : Nat) :
    (coap_async_set_delay s delay now).id = s.id ∧
    (coap_async_set_delay s delay now).session = s.session ∧
    (coap_async_set_delay s delay now).pdu = s.pdu ∧
    (coap_async_set_delay s delay now).delay =
      (if delay = 0 then 0 else now + delay) := by
  unfold coap_async_set_delay
  by_cases h : delay = 0 <;> simp [h]

/-- Claim C10: coap_free_async with a NULL exchange is a no-op on the
whole context; freeing an exchange whose session field is unset never
touches the session reference counts, and freeing one whose pdu field is
unset never destroys a pdu. -/
theorem C10_free_async_guards (ctx : CoapContext) (e : CoapAsync) :
    coap_free_async ctx none = ctx ∧
    (coap_free_async ctx (some { e with session := none })).refcounts =
      ctx.refcounts ∧
    (coap_free_async ctx (some { e with pdu := none })).destroyedPdus =
      ctx.destroyedPdus := by
  refine ⟨rfl, ?_, ?_⟩
  · simp only [coap_free_async]
    cases hp : e.pdu <;> simp
  · simp only [coap_free_async]
    cases hs : e.session <;> simp

/-- Claim C2: coap_register_async returns NULL exactly when the request
is not a well-formed request (code 0 or at least 32), or an exchange for
the same (session, message id) is already registered, or the node or
duplicate allocation fails; in the remaining case a new exchange is
returned. -/
theorem C2_register_none_iff (ctx : CoapContext) (session : Nat)
    (request : Pdu) (delay now : Nat) (aOk dOk : Bool) (fm : Nat) :
    (coap_register_async ctx session request delay now aOk dOk fm).1 =
        none ↔
      (request.code = 0 ∨ 32 ≤ request.code ∨
       coap_find_async ctx session request.mid ≠ none ∨
       aOk = false ∨ dOk = false) := by
  unfold coap_register_async
  cases hreq : COAP_PDU_IS_REQUEST request
  · have hcode : request.code = 0 ∨ 32 ≤ request.code := by
      have hnot : ¬(request.code ≠ 0 ∧ request.code < 32) := by
        rw [← is_request_iff, hreq]
        simp
      omega
    simp only [hreq, Bool.not_false, if_pos]
    constructor
    · intro _
      rcases hcode with h | h
      · exact Or.inl h
      · exact Or.inr (Or.inl h)
    · intro _
      trivial
  · have hcode := (is_request_iff request).mp hreq
    have hc1 : request.code ≠ 0 := hcode.1
    have hc2 : ¬32 ≤ request.code := by omega
    simp only [hreq, Bool.not_true, Bool.false_eq_true, if_false]
    cases hfind : (searchPair ctx.async_state session request.mid).isSome
    · have hfind' : coap_find_async ctx session request.mid = none := by
        rw [coap_find_async, ← Option.not_isSome_iff_eq_none, hfind]
        simp
      cases aOk
      · simp [hfind]
      · cases dOk
        · simp [hfind]
        · simp [hfind, hfind', hc1, hc2]
    · have hfind' : coap_find_async ctx session request.mid ≠ none := by
        rw [coap_find_async, ← Option.isSome_iff_ne_none, hfind]
      simp [hfind, hfind']

/-- Claim C1: in every reachable context the (session, message id) keys
of registered exchanges are pairwise distinct; moreover after a
successful registration, a second registration on the same session with
the same message id returns NULL, and the first exchange is still the
result of coap_find_async afterwards. -/
theorem C1_registry_uniqueness (ctx : CoapContext) (h : Reachable ctx) :
    ctx.async_state.Pairwise (fun a b => keyOf a ≠ keyOf b) ∧
    ∀ session request delay now fm e ctx',
      coap_register_async ctx session request delay now true true fm =
        (some e, ctx') →
      ∀ request2 delay2 now2 aOk dOk fm2, request2.mid = request.mid →
        (coap_register_async ctx' session request2 delay2 now2 aOk dOk
            fm2).1 = none ∧
        coap_find_async
          (coap_register_async ctx' session request2 delay2 now2 aOk dOk
            fm2).2 session request.mid = some e := by
  refine ⟨(reachable_inv ctx h).1, ?_⟩
  intro session request delay now fm e ctx' hreg
  intro request2 delay2 now2 aOk dOk fm2 hmid
  have hfind :=
    find_after_register ctx session request delay now true true fm e ctx' hreg
  unfold coap_register_async
  cases hreq2 : COAP_PDU_IS_REQUEST request2
  · simpa [hreq2] using hfind
  · have hcol :
        (searchPair ctx'.async_state session request2.mid).isSome = true := by
      rw [hmid]
      rw [coap_find_async] at hfind
      rw [hfind]
      rfl
    simpa [hreq2, hcol] using hfind

/-- Claim C4: lookups reflect the most recent operation: right after a
successful registration the request's message id resolves to the new
exchange; right after coap_free_async on a registered exchange its key
resolves to NULL; after coap_delete_all_async every key resolves to
NULL. -/
theorem C4_find_reflects_latest (ctx : CoapContext) (h : Reachable ctx) :
    (∀ session request delay now aOk dOk fm e ctx',
      coap_register_async ctx session request delay now aOk dOk fm =
        (some e, ctx') →
      coap_find_async ctx' session request.mid = some e) ∧
    (∀ e sid p, e ∈ ctx.async_state → e.session = some sid →
      e.pdu = some p →
      coap_find_async (coap_free_async ctx (some e)) sid p.mid = none) ∧
    (∀ sid mid,
      coap_find_async (coap_delete_all_async ctx) sid mid = none) := by
  obtain ⟨hkey, hid, -⟩ := reachable_inv ctx h
  refine ⟨?_, ?_, ?_⟩
  · intro session request delay now aOk dOk fm e ctx' hreg
    exact find_after_register ctx session request delay now aOk dOk fm e
      ctx' hreg
  · intro e sid p he hs hp
    rw [coap_find_async, free_async_state]
    exact searchPair_llDelete_eq_none ctx.async_state hkey hid e he sid p
      hs hp
  · intro sid mid
    simp [coap_find_async, coap_delete_all_async, searchPair]

/-- Claim C9: the duplicate stored by a successful registration carries
the original request's message id — the fresh id `fm` created by
coap_pdu_duplicate is overwritten, whatever it was — so the stored pdu's
mid is the key the exchange is registered under, and lookup by the
original message id finds the exchange. -/
theorem C9_stored_mid_is_request_mid (ctx : CoapContext) (session : Nat)
    (request : Pdu) (delay now : Nat) (fm : Nat) (e : CoapAsync)
    (ctx' : CoapContext)
    (h : coap_register_async ctx session request delay now true true fm =
          (some e, ctx')) :
    ∃ d, e.pdu = some d ∧ d.mid = request.mid ∧
      coap_find_async ctx' session request.mid = some e := by
  obtain ⟨-, -, -, -, he, -⟩ :=
    register_success_iff ctx session request delay now true true fm e ctx' h
  refine ⟨_, by rw [he], ?_,
    find_after_register ctx session request delay now true true fm e ctx' h⟩
  by_cases hp : request.payload.isEmpty <;> simp [hp]

/-- Claim C3: the exchange stored by a successful registration owns a
duplicate with the same token, the same options and the same payload
bytes the request had at registration time; the copy is independent —
for every value `mutated` the caller's original pdu is later changed to
(including the arbitrary garbage left by destroying it), the registry
still returns the same exchange with those unchanged fields. -/
theorem C3_duplicate_independence (ctx : CoapContext) (session : Nat)
    (request : Pdu) (delay now : Nat) (fm : Nat) (e : CoapAsync)
    (ctx' : CoapContext)
    (h : coap_register_async ctx session request delay now true true fm =
          (some e, ctx')) :
    ∀ _mutated : Pdu, ∃ d, e.pdu = some d ∧
      d.token = request.token ∧ d.options = request.options ∧
      d.payload = request.payload ∧
      coap_find_async ctx' session request.mid = some e := by
  intro _mutated
  obtain ⟨-, -, -, -, he, -⟩ :=
    register_success_iff ctx session request delay now true true fm e ctx' h
  refine ⟨_, by rw [he], ?_, ?_, ?_,
    find_after_register ctx session request delay now true true fm e ctx' h⟩
  · by_cases hp : request.payload.isEmpty <;> simp [hp, coap_pdu_duplicate]
  · by_cases hp : request.payload.isEmpty <;> simp [hp, coap_pdu_duplicate]
  · by_cases hp : request.payload.isEmpty <;>
      simp [hp, coap_pdu_duplicate]
    rw [List.isEmpty_iff] at hp
    rw [hp]

/-- Claim C7: coap_free_async on a registered exchange (`e`, occurring
once in the registry at the split `l1 ++ e :: l2`, with no earlier node
at the same address) removes exactly that node, decrements its session's
reference count by exactly one — leaving every other session count
untouched — and hands its owned duplicate to coap_delete_pdu;
coap_delete_all_async empties the registry, releasing one session
reference per registered node and destroying every stored duplicate. -/
theorem C7_release_semantics (ctx : CoapContext) (e : CoapAsync)
    (l1 l2 : List CoapAsync)
    (hsplit : ctx.async_state = l1 ++ e :: l2)
    (hfresh : ∀ a ∈ l1, a.id ≠ e.id)
    (sid : Nat) (p : Pdu) (hs : e.session = some sid) (hp : e.pdu = some p) :
    (coap_free_async ctx (some e)).async_state = l1 ++ l2 ∧
    (coap_free_async ctx (some e)).refcounts sid = ctx.refcounts sid - 1 ∧
    (∀ j, j ≠ sid →
      (coap_free_async ctx (some e)).refcounts j = ctx.refcounts j) ∧
    (coap_free_async ctx (some e)).destroyedPdus =
      ctx.destroyedPdus ++ [p] ∧
    (coap_delete_all_async ctx).async_state = [] ∧
    (∀ j, (coap_delete_all_async ctx).refcounts j =
      ctx.refcounts j - countSessions ctx.async_state j) ∧
    (coap_delete_all_async ctx).destroyedPdus =
      ctx.destroyedPdus ++ ctx.async_state.filterMap CoapAsync.pdu := by
  refine ⟨?_, ?_, ?_, ?_, rfl, ?_, ?_⟩
  · rw [free_async_state, hsplit]
    exact llDelete_append l1 l2 e hfresh
  · rw [free_refcounts, if_pos hs]
  · intro j hj
    rw [free_refcounts, if_neg]
    rw [hs]
    simp [Ne.symm hj]
  · rw [free_destroyed, hp]
    rfl
  · intro j
    exact deleteAll_fold_refcounts ctx.async_state ctx j
  · exact deleteAll_fold_destroyed ctx.async_state ctx

theorem encode_tcp32_eval (L tkl code : Nat)
    (h2 : ¬ L ≤ COAP_MAX_MESSAGE_SIZE_TCP16) :
    coap_pdu_encode_header_tcp L tkl code =
      [15 * 16 + tkl, (L - 65805) / 16777216 % 256,
       (L - 65805) / 65536 % 256, (L - 65805) / 256 % 256,
       (L - 65805) % 256, code] := by
  unfold COAP_MAX_MESSAGE_SIZE_TCP16 COAP_MESSAGE_SIZE_OFFSET_TCP32 at h2
  have h0 : ¬ L ≤ COAP_MAX_MESSAGE_SIZE_TCP0 := by
    unfold COAP_MAX_MESSAGE_SIZE_TCP0 COAP_MESSAGE_SIZE_OFFSET_TCP8
    omega
  have h1 : ¬ L ≤ COAP_MAX_MESSAGE_SIZE_TCP8 := by
    unfold COAP_MAX_MESSAGE_SIZE_TCP8 COAP_MESSAGE_SIZE_OFFSET_TCP16
    omega
  have h2' : ¬ L ≤ COAP_MAX_MESSAGE_SIZE_TCP16 := by
    unfold COAP_MAX_MESSAGE_SIZE_TCP16 COAP_MESSAGE_SIZE_OFFSET_TCP32
    omega
  unfold coap_pdu_encode_header_tcp COAP_MESSAGE_SIZE_OFFSET_TCP32
  rw [if_neg h0, if_neg h1, if_neg h2']

theorem parse_size_tcp32_bytes (tkl a b c d code : Nat) (htkl : tkl < 16) :
    coap_pdu_parse_size_tcp [15 * 16 + tkl, a, b, c, d, code] =
      a * 16777216 + b * 65536 + c * 256 + d + 65805 := by
  have hb : (15 * 16 + tkl) / 16 = 15 := by omega
  have hb1 : ¬ (15 : Nat) < 13 := by omega
  have hb2 : (15 : Nat) ≠ 13 := by omega
  have hb3 : (15 : Nat) ≠ 14 := by omega
  unfold coap_pdu_parse_size_tcp COAP_MESSAGE_SIZE_OFFSET_TCP32
  dsimp only
  rw [hb, if_neg hb1, if_neg hb2, if_neg hb3]
  simp only [List.headD, List.tail]

theorem parse_header_size_tcp32_bytes (tkl a b c d code : Nat)
    (htkl : tkl < 16) :
    coap_pdu_parse_header_size COAP_PROTO_TCP
      [15 * 16 + tkl, a, b, c, d, code] = 6 := by
  have hb : (15 * 16 + tkl) / 16 = 15 := by omega
  have hb1 : ¬ (15 : Nat) < 13 := by omega
  have hb2 : (15 : Nat) ≠ 13 := by omega
  have hb3 : (15 : Nat) ≠ 14 := by omega
  unfold coap_pdu_parse_header_size COAP_PROTO_UDP COAP_PROTO_DTLS
    COAP_PROTO_TCP COAP_PROTO_TLS
  dsimp only
  rw [hb]
  simp [hb1, hb2, hb3]

/-- Claim C8: the TCP length classes have the exact boundaries 12, 13,
269 and 65805: a declared body length up to 12 is encoded in the base
2-byte header with no extension bytes, 13 through 268 with the one-byte
extension (3 header bytes, base offset 13), 269 through 65804 with the
two-byte extension (4 header bytes, base offset 269) and 65805 up to the
TCP32 maximum with the four-byte extension (6 header bytes, base offset
65805); coap_pdu_parse_header_size computes exactly the encoded header's
byte count, and decoding the declared length recovers it. -/
theorem C8_tcp_header_size_classes (L tkl code : Nat) (htkl : tkl < 16)
    (hL : L ≤ COAP_MAX_MESSAGE_SIZE_TCP32) :
    (coap_pdu_encode_header_tcp L tkl code).length =
      (if L ≤ COAP_MAX_MESSAGE_SIZE_TCP0 then 2
       else if L ≤ COAP_MAX_MESSAGE_SIZE_TCP8 then 3
       else if L ≤ COAP_MAX_MESSAGE_SIZE_TCP16 then 4
       else 6) ∧
    coap_pdu_parse_header_size COAP_PROTO_TCP
        (coap_pdu_encode_header_tcp L tkl code) =
      (coap_pdu_encode_header_tcp L tkl code).length ∧
    coap_pdu_parse_size_tcp (coap_pdu_encode_header_tcp L tkl code) = L := by
  by_cases h2 : L ≤ COAP_MAX_MESSAGE_SIZE_TCP16
  · unfold COAP_MAX_MESSAGE_SIZE_TCP16 COAP_MESSAGE_SIZE_OFFSET_TCP32 at h2
    unfold coap_pdu_encode_header_tcp coap_pdu_parse_header_size
      coap_pdu_parse_size_tcp COAP_MAX_MESSAGE_SIZE_TCP0
      COAP_MAX_MESSAGE_SIZE_TCP8 COAP_MAX_MESSAGE_SIZE_TCP16
      COAP_MESSAGE_SIZE_OFFSET_TCP8 COAP_MESSAGE_SIZE_OFFSET_TCP16
      COAP_MESSAGE_SIZE_OFFSET_TCP32 COAP_PROTO_UDP COAP_PROTO_DTLS
      COAP_PROTO_TCP COAP_PROTO_TLS
    by_cases h0 : L ≤ 13 - 1
    · have hb : (L * 16 + tkl) / 16 = L := by omega
      have hlt : L < 13 := by omega
      simp [h0, hb, hlt]
    · by_cases h1 : L ≤ 269 - 1
      · have hb : (13 * 16 + tkl) / 16 = 13 := by omega
        simp [h0, h1, hb]
        omega
      · have hb : (14 * 16 + tkl) / 16 = 14 := by omega
        simp [h0, h1, h2, hb]
        omega
  · rw [encode_tcp32_eval L tkl code h2,
        parse_size_tcp32_bytes _ _ _ _ _ _ htkl,
        parse_header_size_tcp32_bytes _ _ _ _ _ _ htkl]
    have h0 : ¬ L ≤ COAP_MAX_MESSAGE_SIZE_TCP0 := by
      unfold COAP_MAX_MESSAGE_SIZE_TCP0 COAP_MESSAGE_SIZE_OFFSET_TCP8
      unfold COAP_MAX_MESSAGE_SIZE_TCP16 COAP_MESSAGE_SIZE_OFFSET_TCP32 at h2
      omega
    have h1 : ¬ L ≤ COAP_MAX_MESSAGE_SIZE_TCP8 := by
      unfold COAP_MAX_MESSAGE_SIZE_TCP8 COAP_MESSAGE_SIZE_OFFSET_TCP16
      unfold COAP_MAX_MESSAGE_SIZE_TCP16 COAP_MESSAGE_SIZE_OFFSET_TCP32 at h2
      omega
    rw [if_neg h0, if_neg h1, if_neg h2]
    refine ⟨rfl, rfl, ?_⟩
    unfold COAP_MAX_MESSAGE_SIZE_TCP32 COAP_MESSAGE_SIZE_OFFSET_TCP32 at hL
    unfold COAP_MAX_MESSAGE_SIZE_TCP16 COAP_MESSAGE_SIZE_OFFSET_TCP32 at h2
    omega

/-! ### Concrete witnesses -/

/-- Concrete instance of claim C1: after registering `sampleRequest` on
session 1, a second registration with the same session and message id
returns NULL and the first exchange is still found. -/
theorem C1_registry_uniqueness_witness :
    (coap_register_async sampleCtx1 1 sampleRequest 3 9 true true 11).1 =
        none ∧
    coap_find_async
        (coap_register_async sampleCtx1 1 sampleRequest 3 9 true true 11).2
        1 sampleRequest.mid = some sampleExchange :=
  (C1_registry_uniqueness sampleCtx (Reachable.init fun _ => 1)).2
    1 sampleRequest 0 0 5 sampleExchange sampleCtx1 rfl
    sampleRequest 3 9 true true 11 rfl

/-- Concrete instance of claim C3: the stored duplicate keeps token
[1, 2], the Uri-Path option and payload [42] even against an arbitrary
later value of the caller's pdu. -/
theorem C3_duplicate_independence_witness :
    ∃ d, sampleExchange.pdu = some d ∧
      d.token = sampleRequest.token ∧ d.options = sampleRequest.options ∧
      d.payload = sampleRequest.payload ∧
      coap_find_async sampleCtx1 1 sampleRequest.mid = some sampleExchange :=
  C3_duplicate_independence sampleCtx 1 sampleRequest 0 0 5 sampleExchange
    sampleCtx1 rfl
    { type := 3, code := 0, mid := 0, token := [], options := [],
      payload := [] }

/-- Concrete instance of claim C4 at the one-exchange context
`sampleCtx1`. -/
theorem C4_find_reflects_latest_witness :
    (∀ session request delay now aOk dOk fm e ctx',
      coap_register_async sampleCtx1 session request delay now aOk dOk fm =
        (some e, ctx') →
      coap_find_async ctx' session request.mid = some e) ∧
    (∀ e sid p, e ∈ sampleCtx1.async_state → e.session = some sid →
      e.pdu = some p →
      coap_find_async (coap_free_async sampleCtx1 (some e)) sid p.mid =
        none) ∧
    (∀ sid mid,
      coap_find_async (coap_delete_all_async sampleCtx1) sid mid = none) :=
  C4_find_reflects_latest sampleCtx1
    (Reachable.register sampleCtx 1 sampleRequest 0 0 true true 5
      (Reachable.init fun _ => 1))

/-- Concrete instance of claim C7: freeing the single registered
exchange empties the registry, decrements session 1's count and destroys
the stored duplicate. -/
theorem C7_release_semantics_witness :
    (coap_free_async sampleCtx1 (some sampleExchange)).async_state =
      [] ++ [] ∧
    (coap_free_async sampleCtx1 (some sampleExchange)).refcounts 1 =
      sampleCtx1.refcounts 1 - 1 ∧
    (∀ j, j ≠ 1 →
      (coap_free_async sampleCtx1 (some sampleExchange)).refcounts j =
        sampleCtx1.refcounts j) ∧
    (coap_free_async sampleCtx1 (some sampleExchange)).destroyedPdus =
      sampleCtx1.destroyedPdus ++ [sampleRequest] ∧
    (coap_delete_all_async sampleCtx1).async_state = [] ∧
    (∀ j, (coap_delete_all_async sampleCtx1).refcounts j =
      sampleCtx1.refcounts j - countSessions sampleCtx1.async_state j) ∧
    (coap_delete_all_async sampleCtx1).destroyedPdus =
      sampleCtx1.destroyedPdus ++
        sampleCtx1.async_state.filterMap CoapAsync.pdu :=
  C7_release_semantics sampleCtx1 sampleExchange [] [] rfl (by simp)
    1 sampleRequest rfl rfl

/-- Concrete instance of claim C8 at the 2-byte-extension boundary
length 269 with token length 4 and code 69 (2.05 Content). -/
theorem C8_tcp_header_size_classes_witness :
    (coap_pdu_encode_header_tcp 269 4 69).length =
      (if 269 ≤ COAP_MAX_MESSAGE_SIZE_TCP0 then 2
       else if 269 ≤ COAP_MAX_MESSAGE_SIZE_TCP8 then 3
       else if 269 ≤ COAP_MAX_MESSAGE_SIZE_TCP16 then 4
       else 6) ∧
    coap_pdu_parse_header_size COAP_PROTO_TCP
        (coap_pdu_encode_header_tcp 269 4 69) =
      (coap_pdu_encode_header_tcp 269 4 69).length ∧
    coap_pdu_parse_size_tcp (coap_pdu_encode_header_tcp 269 4 69) = 269 :=
  C8_tcp_header_size_classes 269 4 69 (by omega) (by decide)

/-- Concrete instance of claim C9: the stored duplicate's message id is
7, the request's, not the fresh id 5 created during duplication. -/
theorem C9_stored_mid_witness :
    ∃ d, sampleExchange.pdu = some d ∧ d.mid = sampleRequest.mid ∧
      coap_find_async sampleCtx1 1 sampleRequest.mid = some sampleExchange :=
  C9_stored_mid_is_request_mid sampleCtx 1 sampleRequest 0 0 5
    sampleExchange sampleCtx1 rfl

end LibCoap
